import Mathlib

set_option maxRecDepth 16384

/-!
Verification of the cp210x-program EEPROM core: a shallow embedding of
`src/cp210x/cp210x.py`, `src/cp210x/eeprom.py` and `src/cp210x/valuefile.py`.

Python byte strings are modelled as `List Nat` (each element one byte value),
unicode strings as lists of UTF-16 code units (`List Nat`), and Python `assert`
statements become hypotheses of the theorems.  Fallible parsing returns
`Except`/`Option`.
-/

namespace CP210x

/-! ### Constants from cp210x.py -/

def SIZE_EEPROM : Nat := 0x0400
def SIZE_PRODUCT_STRING : Nat := 0x007D
def SIZE_SERIAL_NUMBER : Nat := 0x003F
def SIZE_BAUDRATES : Nat := 32
def SIZE_BAUDRATE_CFG : Nat := 10
def SIZE_BAUDRATE_TABLE : Nat := SIZE_BAUDRATES * SIZE_BAUDRATE_CFG
def SIZE_VENDOR_STRING : Nat := 24
def LCK_LOCKED : Nat := 0x00
def LCK_UNLOCKED : Nat := 0xFF

/-! ### Scalar codec (cp210x.py) -/

/-- `to_div2` from cp210x.py: `value = int(p / 2); if value * 2 < p: value += 1`. -/
def to_div2 (p : Nat) : Nat :=
  let value := p / 2
  if value * 2 < p then value + 1 else value

/-- `to_bcd` from cp210x.py: `(i // 10) << 4 | (i % 10)`.
The Python `assert 0 <= i <= 99` becomes a hypothesis where needed. -/
def to_bcd (i : Nat) : Nat := ((i / 10) <<< 4) ||| (i % 10)

/-- `to_bcd2` from cp210x.py: `to_bcd(i) << 8 | to_bcd(j)`. -/
def to_bcd2 (ij : Nat × Nat) : Nat := (to_bcd ij.1 <<< 8) ||| to_bcd ij.2

/-- `from_bcd` from cp210x.py, with Python operator precedence preserved:
`num & 0x0F + (num >> 4) * 10` parses as `num & (0x0F + (num >> 4) * 10)`. -/
def from_bcd (num : Nat) : Nat := num &&& (0x0F + (num >>> 4) * 10)

/-- `from_bcd2` from cp210x.py. -/
def from_bcd2 (data : Nat) : Nat × Nat := (from_bcd (data >>> 8), from_bcd (data &&& 0xFF))

/-- One step of the `from_binary` loop: `value = value << 8 | ord(byte)`. -/
def from_binary_step (value byte : Nat) : Nat := (value <<< 8) ||| byte

/-- `from_binary` from cp210x.py: big-endian fold after optionally reversing. -/
def from_binary (data : List Nat) (le : Bool := true) : Nat :=
  (if le then data.reverse else data).foldl from_binary_step 0

/-- The loop of `to_binary`: emit `value & 0xFF` then shift, `size` times
(little-endian byte order). -/
def to_binary_le : Nat → Nat → List Nat
  | _, 0 => []
  | value, size + 1 => (value &&& 0xFF) :: to_binary_le (value >>> 8) size

/-- `to_binary` from cp210x.py (default `size=2`, `le=True`). -/
def to_binary (value : Nat) (size : Nat := 2) (le : Bool := true) : List Nat :=
  if le then to_binary_le value size else (to_binary_le value size).reverse

/-- A baudrate table entry `(baudgen, timer0reload, prescaler, baudrate)`. -/
abbrev BaudEntry := Nat × Nat × Nat × Nat

/-- `parse_baudrate_cfg` from cp210x.py: fields at byte slices
`[0:2]` BE, `[2:4]` BE, `[4:5]` LE, `[6:10]` LE. -/
def parse_baudrate_cfg (data : List Nat) : BaudEntry :=
  (from_binary (data.take 2) false,
   from_binary ((data.drop 2).take 2) false,
   from_binary ((data.drop 4).take 1),
   from_binary ((data.drop 6).take 4))

/-- `build_baudrate_cfg` from cp210x.py. -/
def build_baudrate_cfg (e : BaudEntry) : List Nat :=
  to_binary e.1 2 false ++ to_binary e.2.1 2 false ++
    to_binary e.2.2.1 1 ++ [0x00] ++ to_binary e.2.2.2 4

/-! ### Rate-table merge (valuefile.py) -/

/-- `REQUEST_BAUDRATE_RANGES` from valuefile.py, verbatim: `(start, stop)`
pairs, `start = None` meaning unbounded above. -/
def REQUEST_BAUDRATE_RANGES : List (Option Nat × Nat) :=
  [(none, 2457601),
   (some 2457600, 1474561),
   (some 1474560, 1053258),
   (some 1053257, 670255),
   (some 670254, 567139),
   (some 567138, 491521),
   (some 491520, 273067),
   (some 273066, 254235),
   (some 254234, 237833),
   (some 237832, 156869),
   (some 156868, 129348),
   (some 129347, 117029),
   (some 117028, 77609),
   (some 77608, 64112),
   (some 64111, 58054),
   (some 58053, 56281),
   (some 56280, 51559),
   (some 51558, 38602),
   (some 38601, 28913),
   (some 28912, 19251),
   (some 19250, 16063),
   (some 16062, 14429),
   (some 14428, 9613),
   (some 9612, 7208),
   (some 7207, 4804),
   (some 4803, 4001),
   (some 4000, 2401),
   (some 2400, 1801),
   (some 1800, 1201),
   (some 1200, 601),
   (some 600, 301),
   (some 300, 57)]

/-- The inner-loop condition of `merge_baudrate_table`:
`(start is None or baudrate <= start) and baudrate >= stop`. -/
def matchesRange (r : Option Nat × Nat) (baudrate : Nat) : Bool :=
  (match r.1 with
   | none => true
   | some start => baudrate ≤ start) && r.2 ≤ baudrate

/-- `merge_baudrate_table` from valuefile.py: for each `(old_info, range)` pair
of `zip(old, REQUEST_BAUDRATE_RANGES)`, yield the first entry of `new` whose
baudrate matches the range, else `old_info`. -/
def merge_baudrate_table (old new : List BaudEntry) : List BaudEntry :=
  (old.zip REQUEST_BAUDRATE_RANGES).map fun oi =>
    match new.find? (fun e => matchesRange oi.2 e.2.2.2) with
    | some e => e
    | none => oi.1

/-! ### EEPROM image (eeprom.py) -/

def POS_BAUDRATE_TABLE : Nat := 0x0000
def POS_PART_NUMBER : Nat := 0x01FF
def POS_PRODUCT_STRING : Nat := 0x0208
def POS_SERIAL_NUMBER : Nat := 0x0307
def POS_VENDOR_ID : Nat := 0x0390
def POS_PRODUCT_ID : Nat := 0x0392
def POS_VERSION : Nat := 0x0394
def POS_CFG_ATTRIBUTES : Nat := 0x03A1
def POS_MAX_POWER : Nat := 0x03A2
def POS_VENDOR_STRING : Nat := 0x03C3
def POS_LOCK_VALUE : Nat := 0x03FF

/-- The EEPROM image: `self.content`, a Python byte string. -/
structure EEPROM where
  content : List Nat

/-- `EEPROM.get`: `self.content[pos:pos+length]` (Python slicing clips,
it never fails). -/
def EEPROM.get (e : EEPROM) (pos length : Nat) : List Nat :=
  (e.content.drop pos).take length

/-- `EEPROM.set`: `self.content[:pos] + data + self.content[pos+len(data):]`
(Python slicing, no bounds check). -/
def EEPROM.set (e : EEPROM) (pos : Nat) (data : List Nat) : EEPROM :=
  ⟨e.content.take pos ++ data ++ e.content.drop (pos + data.length)⟩

/-- `checksum` from eeprom.py: `sum(ord(c) for c in line) & 0xFF`. -/
def checksum (line : List Nat) : Nat := line.sum &&& 0xFF

def START_ADDRESS : Nat := 0x3600

/-! ### Hex record codec (eeprom.py) -/

/-- One lowercase hex digit, as produced by Python's `str.encode('hex')`. -/
def toHexChar (n : Nat) : Char :=
  if n < 10 then Char.ofNat (48 + n) else Char.ofNat (87 + n)

def hexEncodeByte (b : Nat) : List Char := [toHexChar (b / 16), toHexChar (b % 16)]

def hexEncode (bs : List Nat) : List Char := (bs.map hexEncodeByte).flatten

/-- Value of one hex digit (both cases), `none` on a non-hex character. -/
def hexDigitVal (c : Char) : Option Nat :=
  if 48 ≤ c.toNat ∧ c.toNat ≤ 57 then some (c.toNat - 48)
  else if 97 ≤ c.toNat ∧ c.toNat ≤ 102 then some (c.toNat - 87)
  else if 65 ≤ c.toNat ∧ c.toNat ≤ 70 then some (c.toNat - 55)
  else none

/-- Python's `str.decode('hex')`: fails on odd length or non-hex input. -/
def hexDecode : List Char → Option (List Nat)
  | [] => some []
  | [_] => none
  | c1 :: c2 :: rest =>
    match hexDigitVal c1, hexDigitVal c2, hexDecode rest with
    | some h, some l, some bs => some ((16 * h + l) :: bs)
    | _, _, _ => none

/-- The error causes raised as `HexFileError` in `parse_hex_file`. -/
inductive HexFileError
  | missingColon
  | invalidHex
  | lineTooShort
  | checksumError
  | addressMismatch
  | defectEndTag
  | unknownTagType
  deriving DecidableEq

/-- The loop body of `EEPROM.parse_hex_file` over the lines of
`hex_content.split(chr(10))`, carrying the running `address` cursor and the
accumulated `self.content`.  Reaching the end of the line list without an end
tag leaves the accumulated content in place (the Python loop just ends). -/
def parse_lines : List (List Char) → Nat → List Nat → Except HexFileError (List Nat)
  | [], _, acc => .ok acc
  | line :: rest, address, acc =>
    if line.head? ≠ some ':' then .error .missingColon
    else
      match hexDecode line.tail with
      | none => .error .invalidHex
      | some content =>
        if content.length < 5 then .error .lineTooShort
        else if checksum content ≠ 0 then .error .checksumError
        else
          let size := from_binary (content.take 1)
          let tag_address := from_binary ((content.drop 1).take 2) false
          let tag_type := from_binary ((content.drop 3).take 1)
          let line' := (content.drop 4).dropLast
          if tag_type = 0x00 then
            if tag_address ≠ address then .error .addressMismatch
            else parse_lines rest (address + line'.length) (acc ++ line')
          else if tag_type = 0x01 then
            if size ≠ 0 ∨ line'.length ≠ 0 then .error .defectEndTag
            else .ok acc
          else .error .unknownTagType

/-- Python's `str.split(sep)` for a one-character separator: parts between
separators, including empty parts (and a final empty part after a trailing
separator). -/
def pySplit (sep : Char) : List Char → List (List Char)
  | [] => [[]]
  | c :: rest =>
    if c = sep then [] :: pySplit sep rest
    else
      match pySplit sep rest with
      | part :: parts => (c :: part) :: parts
      | [] => [[c]]

/-- Python's `sep.flatten(lines)`: concatenation with a one-character separator
between consecutive lines and no trailing separator. -/
def joinWith (sep : Char) : List (List Char) → List Char
  | [] => []
  | [l] => l
  | l :: rest => l ++ sep :: joinWith sep rest

/-- `EEPROM.parse_hex_file`: split on newline, then run the record loop with
the cursor at `START_ADDRESS` and empty accumulated content. -/
def parse_hex_file (text : List Char) : Except HexFileError (List Nat) :=
  parse_lines (pySplit (Char.ofNat 10) text) START_ADDRESS []

/-- The record bytes before the checksum byte:
`to_binary(len(line), 1) + to_binary(address, le=False) + chr(0) + line`. -/
def record_tag (address : Nat) (line : List Nat) : List Nat :=
  to_binary line.length 1 ++ to_binary address 2 false ++ [0x00] ++ line

/-- Append the checksum byte: `0` if the sum is already `0`, else `0x100 - cs`. -/
def record_with_checksum (tag : List Nat) : List Nat :=
  let cs := checksum tag
  if cs = 0 then tag ++ [0x00] else tag ++ [0x100 - cs]

/-- One emitted data-record line (without the trailing newline). -/
def record_line (address : Nat) (line : List Nat) : List Char :=
  ':' :: hexEncode (record_with_checksum (record_tag address line))

/-- The fixed end record `:00000001FF` (without the trailing newline). -/
def end_line : List Char := [':', '0', '0', '0', '0', '0', '0', '0', '1', 'F', 'F']

/-- The data-record lines of `EEPROM.build_hex_file`: one record per 16-byte
chunk, addresses advancing by 16. -/
def build_hex_lines (content : List Nat) (address : Nat) : List (List Char) :=
  if h : content = [] then []
  else
    record_line address (content.take 0x10) ::
      build_hex_lines (content.drop 0x10) (address + 0x10)
termination_by content.length
decreasing_by
  simp only [List.length_drop]
  have := List.length_pos.mpr h
  omega

/-- `EEPROM.build_hex_file`, concatenated: every yielded line ends with a
newline, and the end record follows the data records. -/
def build_hex_file (content : List Nat) : List Char :=
  ((build_hex_lines content START_ADDRESS ++ [end_line]).map
    (· ++ [Char.ofNat 10])).flatten

/-! ### Typed field accessors (eeprom.py property definitions)

Unicode strings are modelled as lists of UTF-16 code units; Python's
`encode('utf-16-le')` / `decode('utf-16-le')` become the byte
interleaving/pairing below. -/

def utf16le_encode (units : List Nat) : List Nat :=
  (units.map (fun u => [u % 256, u / 256 % 256])).flatten

def utf16le_decode : List Nat → Option (List Nat)
  | [] => some []
  | [_] => none
  | b0 :: b1 :: rest => (utf16le_decode rest).map (fun us => (b0 + 256 * b1) :: us)

/-- The getter produced by `_str_value`: read the descriptor size byte, check
the asserts (`2 <= desc_size <= max_desc_size`, marker `0x03`), then decode the
payload.  Failed asserts / decode errors are `none`. -/
def str_value_get (e : EEPROM) (position max_desc_size : Nat) : Option (List Nat) :=
  let desc_size := from_binary (e.get position 1)
  if desc_size ≤ max_desc_size ∧ 2 ≤ desc_size then
    if e.get (position + 1) 1 = [0x03] then
      utf16le_decode (e.get (position + 2) (desc_size - 2))
    else none
  else none

/-- The setter produced by `_str_value`:
`self.set(position, chr(len(encoded) + 2) + chr(3) + encoded)`.  The Python
`assert desc_size <= max_desc_size` becomes a theorem hypothesis. -/
def str_value_set (e : EEPROM) (position : Nat) (value : List Nat) : EEPROM :=
  e.set position (((utf16le_encode value).length + 2) :: 0x03 :: utf16le_encode value)

def EEPROM.get_part_number (e : EEPROM) : Nat := from_binary (e.get POS_PART_NUMBER 1)

def EEPROM.set_part_number (e : EEPROM) (v : Nat) : EEPROM :=
  e.set POS_PART_NUMBER (to_binary v 1)

def EEPROM.get_vendor_id (e : EEPROM) : Nat := from_binary (e.get POS_VENDOR_ID 2)

def EEPROM.set_vendor_id (e : EEPROM) (v : Nat) : EEPROM :=
  e.set POS_VENDOR_ID (to_binary v 2)

def EEPROM.get_product_id (e : EEPROM) : Nat := from_binary (e.get POS_PRODUCT_ID 2)

def EEPROM.set_product_id (e : EEPROM) (v : Nat) : EEPROM :=
  e.set POS_PRODUCT_ID (to_binary v 2)

def EEPROM.get_version (e : EEPROM) : Nat × Nat :=
  from_bcd2 (from_binary (e.get POS_VERSION 2))

def EEPROM.set_version (e : EEPROM) (v : Nat × Nat) : EEPROM :=
  e.set POS_VERSION (to_binary (to_bcd2 v) 2)

def EEPROM.get_bus_powered (e : EEPROM) : Bool :=
  from_binary (e.get POS_CFG_ATTRIBUTES 1) &&& 0x40 != 0

def EEPROM.set_bus_powered (e : EEPROM) (b : Bool) : EEPROM :=
  e.set POS_CFG_ATTRIBUTES (to_binary (if b then 0xC0 else 0x80) 1)

def EEPROM.get_max_power (e : EEPROM) : Nat :=
  from_binary (e.get POS_MAX_POWER 1) * 2

def EEPROM.set_max_power (e : EEPROM) (p : Nat) : EEPROM :=
  e.set POS_MAX_POWER (to_binary (to_div2 p) 1)

def EEPROM.get_locked (e : EEPROM) : Bool :=
  from_binary (e.get POS_LOCK_VALUE 1) == LCK_LOCKED

def EEPROM.set_locked (e : EEPROM) (b : Bool) : EEPROM :=
  e.set POS_LOCK_VALUE (to_binary (if b then LCK_LOCKED else LCK_UNLOCKED) 1)

def EEPROM.get_product_string (e : EEPROM) : Option (List Nat) :=
  str_value_get e POS_PRODUCT_STRING SIZE_PRODUCT_STRING

def EEPROM.set_product_string (e : EEPROM) (s : List Nat) : EEPROM :=
  str_value_set e POS_PRODUCT_STRING s

def EEPROM.get_serial_number (e : EEPROM) : Option (List Nat) :=
  str_value_get e POS_SERIAL_NUMBER SIZE_SERIAL_NUMBER

def EEPROM.set_serial_number (e : EEPROM) (s : List Nat) : EEPROM :=
  str_value_set e POS_SERIAL_NUMBER s

def EEPROM.get_vendor_string (e : EEPROM) : Option (List Nat) :=
  str_value_get e POS_VENDOR_STRING SIZE_VENDOR_STRING

def EEPROM.set_vendor_string (e : EEPROM) (s : List Nat) : EEPROM :=
  str_value_set e POS_VENDOR_STRING s

/-- `EEPROM._get_baudrate_table`: parse each 10-byte slice of the 320-byte
table region. -/
def EEPROM.get_baudrate_table (e : EEPROM) : List BaudEntry :=
  (List.range SIZE_BAUDRATES).map fun k =>
    parse_baudrate_cfg
      (((e.get POS_BAUDRATE_TABLE SIZE_BAUDRATE_TABLE).drop (SIZE_BAUDRATE_CFG * k)).take
        SIZE_BAUDRATE_CFG)

/-- `EEPROM._set_baudrate_table` (the `assert len == 32` becomes a
hypothesis). -/
def EEPROM.set_baudrate_table (e : EEPROM) (tbl : List BaudEntry) : EEPROM :=
  e.set POS_BAUDRATE_TABLE ((tbl.map build_baudrate_cfg).flatten)

/-- A `ValueSet`: the `values` dict keyed by the `VALUES` catalog of
cp210x.py; `none` marks an absent key. -/
structure ValueSet where
  product_string : Option (List Nat) := none
  serial_number : Option (List Nat) := none
  product_id : Option Nat := none
  vendor_id : Option Nat := none
  version : Option (Nat × Nat) := none
  bus_powered : Option Bool := none
  max_power : Option Nat := none
  locked : Option Bool := none
  part_number : Option Nat := none
  vendor_string : Option (List Nat) := none
  baudrate_table : Option (List BaudEntry) := none

def applyOpt {α : Type} (f : EEPROM → α → EEPROM) (x : Option α) (e : EEPROM) : EEPROM :=
  match x with
  | none => e
  | some a => f e a

/-- `EEPROM.set_values`: apply every present entry through its field setter.
Python iterates the dict in unspecified order; the field regions are pairwise
disjoint, so the result is order-independent and we fix the `VALUES` catalog
order. -/
def EEPROM.set_values (e : EEPROM) (v : ValueSet) : EEPROM :=
  applyOpt EEPROM.set_baudrate_table v.baudrate_table
    (applyOpt EEPROM.set_vendor_string v.vendor_string
      (applyOpt EEPROM.set_part_number v.part_number
        (applyOpt EEPROM.set_locked v.locked
          (applyOpt EEPROM.set_max_power v.max_power
            (applyOpt EEPROM.set_bus_powered v.bus_powered
              (applyOpt EEPROM.set_version v.version
                (applyOpt EEPROM.set_vendor_id v.vendor_id
                  (applyOpt EEPROM.set_product_id v.product_id
                    (applyOpt EEPROM.set_serial_number v.serial_number
                      (applyOpt EEPROM.set_product_string v.product_string e))))))))))

/-- `EEPROM.get_values`: read every field of the `VALUES` catalog. -/
def EEPROM.get_values (e : EEPROM) : ValueSet where
  product_string := e.get_product_string
  serial_number := e.get_serial_number
  product_id := some e.get_product_id
  vendor_id := some e.get_vendor_id
  version := some e.get_version
  bus_powered := some e.get_bus_powered
  max_power := some e.get_max_power
  locked := some e.get_locked
  part_number := some e.get_part_number
  vendor_string := e.get_vendor_string
  baudrate_table := some e.get_baudrate_table

/-- The encoding-side constraints of each field type (the Python asserts and
the ranges in which the stored byte encodings are faithful). -/
def ValueSet.Valid (v : ValueSet) : Prop :=
  (match v.product_string with
   | none => True
   | some s => (∀ u ∈ s, u < 65536) ∧ 2 * s.length + 2 ≤ SIZE_PRODUCT_STRING) ∧
  (match v.serial_number with
   | none => True
   | some s => (∀ u ∈ s, u < 65536) ∧ 2 * s.length + 2 ≤ SIZE_SERIAL_NUMBER) ∧
  (match v.product_id with | none => True | some n => n < 65536) ∧
  (match v.vendor_id with | none => True | some n => n < 65536) ∧
  (match v.version with | none => True | some p => p.1 ≤ 9 ∧ p.2 ≤ 9) ∧
  (match v.max_power with | none => True | some n => n % 2 = 0 ∧ n ≤ 510) ∧
  (match v.part_number with | none => True | some n => n < 256) ∧
  (match v.vendor_string with
   | none => True
   | some s => (∀ u ∈ s, u < 65536) ∧ 2 * s.length + 2 ≤ SIZE_VENDOR_STRING) ∧
  (match v.baudrate_table with
   | none => True
   | some t => t.length = 32 ∧
       ∀ en ∈ t, en.1 < 65536 ∧ en.2.1 < 65536 ∧ en.2.2.1 < 256 ∧ en.2.2.2 < 4294967296)

/-! ### Transport layer (cp210x.py, `Cp210xProgrammer`) -/

/-- Errors of the transport layer: `Cp210xError` and its subclass
`DeviceLocked`, plus Python `assert` failures. -/
inductive Cp210xError
  | deviceLocked
  | assertionFailed
  deriving DecidableEq

/-- The transport-visible device state: the cached lock flag
(`self._locked`, as returned by `get_locked()`) and the device's EEPROM
bytes behind the vendor registers. -/
structure Programmer where
  locked : Bool
  mem : List Nat

/-- `Cp210xProgrammer._set_config`: check `get_locked()` and raise
`DeviceLocked` before any control transfer; otherwise perform the write. -/
def Programmer.set_config (p : Programmer) (write : List Nat → List Nat) :
    Except Cp210xError Programmer :=
  if p.locked then .error .deviceLocked else .ok ⟨p.locked, write p.mem⟩

/-- `Cp210xProgrammer.set_eeprom_content`: assert the blob is 1024 bytes,
then write it through `_set_config`. -/
def Programmer.set_eeprom_content (p : Programmer) (content : List Nat) :
    Except Cp210xError Programmer :=
  if content.length = SIZE_EEPROM then p.set_config (fun _ => content)
  else .error .assertionFailed

/-! ### Theorems: rate-table merge -/

theorem length_REQUEST_BAUDRATE_RANGES : REQUEST_BAUDRATE_RANGES.length = 32 := rfl

theorem length_merge_baudrate_table (old new : List BaudEntry) :
    (merge_baudrate_table old new).length = min old.length 32 := by
  simp [merge_baudrate_table, List.length_zip, length_REQUEST_BAUDRATE_RANGES]

theorem getElem?_merge_baudrate_table (old new : List BaudEntry) (i : Nat) :
    (merge_baudrate_table old new)[i]? =
      old[i]?.bind fun o => REQUEST_BAUDRATE_RANGES[i]?.map fun r =>
        (new.find? (fun e => matchesRange r e.2.2.2)).getD o := by
  rw [merge_baudrate_table, List.getElem?_map, List.zip, List.getElem?_zipWith']
  cases old[i]? <;> cases REQUEST_BAUDRATE_RANGES[i]? <;> simp [Option.getD]
  cases new.find? _ <;> simp

/-- C10: the merged rate table has exactly `min (length base) 32` entries, and
each output position `i` holds the first override entry whose target rate
matches fixed range `i`, or else the base entry at position `i`. -/
theorem merge_baudrate_table_spec (old new : List BaudEntry) :
    (merge_baudrate_table old new).length = min old.length 32 ∧
    ∀ i : Nat, (merge_baudrate_table old new)[i]? =
      old[i]?.bind fun o => REQUEST_BAUDRATE_RANGES[i]?.map fun r =>
        (new.find? (fun e => matchesRange r e.2.2.2)).getD o :=
  ⟨length_merge_baudrate_table old new, getElem?_merge_baudrate_table old new⟩

/-- C6: merging a 32-entry base table with an empty override list returns the
base table unchanged. -/
theorem merge_baudrate_table_empty (old : List BaudEntry) (h : old.length = 32) :
    merge_baudrate_table old [] = old := by
  apply List.ext_getElem?
  intro i
  rw [getElem?_merge_baudrate_table]
  rcases Nat.lt_or_ge i 32 with hi | hi
  · have hR : REQUEST_BAUDRATE_RANGES[i]? =
        some (REQUEST_BAUDRATE_RANGES[i]) :=
      List.getElem?_eq_getElem (by rw [length_REQUEST_BAUDRATE_RANGES]; exact hi)
    rw [hR]
    cases old[i]? <;> simp [List.find?]
  · have h1 : old[i]? = none := List.getElem?_eq_none (by omega)
    rw [h1]; rfl

theorem merge_baudrate_table_empty_witness :
    merge_baudrate_table ((List.range 32).map (fun i => ((100 + i, 200 + i, i, 1000 * i) : BaudEntry))) [] =
      (List.range 32).map (fun i => ((100 + i, 200 + i, i, 1000 * i) : BaudEntry)) :=
  merge_baudrate_table_empty _ (by simp)

theorem matchesRange_9600 :
    ∀ i < 32, REQUEST_BAUDRATE_RANGES[i]?.map (fun r => matchesRange r 9600) =
      some (decide (i = 23)) := by decide

/-- C7: merging a 32-entry base with the single override `(g, t, p, 9600)`
replaces exactly slot 23 (the slot whose fixed range `(9612, 7208)` contains
9600) with the override entry and leaves every other slot unchanged. -/
theorem merge_baudrate_table_single_9600 (old : List BaudEntry) (g t p : Nat)
    (h : old.length = 32) :
    merge_baudrate_table old [(g, t, p, 9600)] = old.set 23 (g, t, p, 9600) := by
  apply List.ext_getElem?
  intro i
  rw [getElem?_merge_baudrate_table]
  rcases Nat.lt_or_ge i 32 with hi | hi
  · have hR : REQUEST_BAUDRATE_RANGES[i]? = some (REQUEST_BAUDRATE_RANGES[i]) :=
      List.getElem?_eq_getElem (by rw [length_REQUEST_BAUDRATE_RANGES]; exact hi)
    have hmatch := matchesRange_9600 i hi
    rw [hR] at hmatch ⊢
    have hmatch' : matchesRange (REQUEST_BAUDRATE_RANGES[i]) 9600 = decide (i = 23) := by
      simpa using hmatch
    have hiold : i < old.length := by omega
    rw [List.getElem?_eq_getElem hiold]
    by_cases h23 : i = 23
    · subst h23
      have hm : matchesRange (REQUEST_BAUDRATE_RANGES[23]) 9600 = true := by
        rw [hmatch']; simp
      simp [List.find?_cons, hm, h]
    · have hm : matchesRange (REQUEST_BAUDRATE_RANGES[i]) 9600 = false := by
        rw [hmatch']; simp [h23]
      rw [List.getElem?_set_ne (by omega : 23 ≠ i)]
      simp [List.find?_cons, hm, List.getElem?_eq_getElem hiold]
  · have h1 : old[i]? = none := List.getElem?_eq_none (by omega)
    have h2 : (old.set 23 (g, t, p, 9600))[i]? = none :=
      List.getElem?_eq_none (by simp; omega)
    rw [h1, h2]; rfl

theorem merge_baudrate_table_single_9600_witness :
    merge_baudrate_table ((List.range 32).map (fun i => ((100 + i, 200 + i, i, 1000 * i) : BaudEntry))) [(7, 8, 9, 9600)] =
      ((List.range 32).map (fun i => ((100 + i, 200 + i, i, 1000 * i) : BaudEntry))).set 23 (7, 8, 9, 9600) :=
  merge_baudrate_table_single_9600 _ 7 8 9 (by simp)

/-- C5 (amended): slot 31 of the merged table equals slot 31 of the base
whenever no override target rate lies in the 32nd range `[57, 300]`; the merge
does pair slot 31 with a range and can populate it from such an override. -/
theorem merge_baudrate_table_slot31 (old new : List BaudEntry) (h : old.length = 32)
    (hnew : ∀ e ∈ new, e.2.2.2 < 57 ∨ 300 < e.2.2.2) :
    (merge_baudrate_table old new)[31]? = old[31]? := by
  rw [getElem?_merge_baudrate_table]
  have hR : REQUEST_BAUDRATE_RANGES[31]? = some (some 300, 57) := by decide
  have hf : new.find? (fun e => matchesRange (some 300, 57) e.2.2.2) = none := by
    rw [List.find?_eq_none]
    intro e he
    rcases hnew e he with h1 | h1 <;> simp [matchesRange] <;> omega
  rw [hR, List.getElem?_eq_getElem (by omega : 31 < old.length)]
  simp [hf]

theorem merge_baudrate_table_slot31_witness :
    (merge_baudrate_table ((List.range 32).map (fun i => ((100 + i, 200 + i, i, 1000 * i) : BaudEntry))) [(9, 9, 9, 500000)])[31]? =
      (((List.range 32).map (fun i => ((100 + i, 200 + i, i, 1000 * i) : BaudEntry))))[31]? :=
  merge_baudrate_table_slot31 _ _ (by simp) (by decide)

/-- C5 counterexample: an override with target rate 300 lands in slot 31, so
slot 31 of the merged table differs from slot 31 of the base. -/
theorem merge_baudrate_table_slot31_counterexample :
    (merge_baudrate_table ((List.range 32).map (fun i => ((0, 0, 0, i) : BaudEntry))) [(1, 2, 3, 300)])[31]? = some (1, 2, 3, 300) ∧
    ((List.range 32).map (fun i => ((0, 0, 0, i) : BaudEntry)))[31]? = some (0, 0, 0, 31) ∧
    ((1, 2, 3, 300) : BaudEntry) ≠ (0, 0, 0, 31) := by decide

/-! ### Theorems: binary scalar codec -/

theorem and_255_eq_mod (x : Nat) : x &&& 255 = x % 256 := by
  have h := Nat.and_pow_two_sub_one_eq_mod x 8
  norm_num at h
  exact h

theorem from_binary_step_eq (v b : Nat) (hb : b < 256) :
    from_binary_step v b = v * 256 + b := by
  have h := Nat.mul_add_lt_is_or (show b < 2 ^ 8 by omega) v
  rw [Nat.mul_comm (2 ^ 8) v] at h
  rw [from_binary_step, Nat.shiftLeft_eq, ← h]

theorem from_binary_singleton (b : Nat) (le : Bool) : from_binary [b] le = b := by
  cases le <;> simp [from_binary, from_binary_step, Nat.zero_shiftLeft]

theorem from_binary_cons (x : Nat) (xs : List Nat) :
    from_binary (x :: xs) = from_binary_step (from_binary xs) x := by
  simp [from_binary, List.foldl_append]

theorem length_to_binary_le (v n : Nat) : (to_binary_le v n).length = n := by
  induction n generalizing v with
  | zero => rfl
  | succ n ih => simp [to_binary_le, ih]

theorem mem_to_binary_le_lt (v n : Nat) : ∀ b ∈ to_binary_le v n, b < 256 := by
  induction n generalizing v with
  | zero => simp [to_binary_le]
  | succ n ih =>
    intro b hb
    rw [to_binary_le] at hb
    rcases List.mem_cons.mp hb with h | h
    · rw [h, and_255_eq_mod]; omega
    · exact ih _ b h

theorem from_binary_to_binary_le (n v : Nat) :
    from_binary (to_binary_le v n) = v % 256 ^ n := by
  induction n generalizing v with
  | zero => simp [to_binary_le, from_binary, Nat.mod_one]
  | succ n ih =>
    rw [to_binary_le, from_binary_cons, ih,
      from_binary_step_eq _ _ (by rw [and_255_eq_mod]; omega),
      and_255_eq_mod, Nat.shiftRight_eq_div_pow]
    norm_num
    rw [Nat.pow_succ, Nat.mul_comm (256 ^ n) 256, Nat.mod_mul]
    omega

theorem from_binary_to_binary (v n : Nat) (le : Bool) :
    from_binary (to_binary v n le) le = v % 256 ^ n := by
  cases le <;> simp [to_binary, from_binary] <;>
    simpa [from_binary] using from_binary_to_binary_le n v

theorem length_to_binary (v n : Nat) (le : Bool) : (to_binary v n le).length = n := by
  cases le <;> simp [to_binary, length_to_binary_le]

theorem mem_to_binary_lt (v n : Nat) (le : Bool) : ∀ b ∈ to_binary v n le, b < 256 := by
  cases le <;> simp only [to_binary, Bool.false_eq_true, if_false, if_true, List.mem_reverse] <;>
    exact mem_to_binary_le_lt v n

/-! ### Theorems: hex record codec -/

theorem hexDigitVal_toHexChar : ∀ n < 16, hexDigitVal (toHexChar n) = some n := by decide

theorem toHexChar_ne_newline : ∀ n < 16, toHexChar n ≠ Char.ofNat 10 := by decide

theorem hexDecode_encodeByte_append (b : Nat) (hb : b < 256) (cs : List Char) :
    hexDecode (hexEncodeByte b ++ cs) = (hexDecode cs).map (fun bs => b :: bs) := by
  have h1 := hexDigitVal_toHexChar (b / 16) (by omega)
  have h2 := hexDigitVal_toHexChar (b % 16) (by omega)
  simp only [hexEncodeByte, List.cons_append, List.nil_append, hexDecode, h1, h2]
  rcases h : hexDecode cs with _ | v <;> simp [h, Nat.div_add_mod]

theorem hexDecode_hexEncode (bs : List Nat) (h : ∀ b ∈ bs, b < 256) :
    hexDecode (hexEncode bs) = some bs := by
  induction bs with
  | nil => rfl
  | cons b rest ih =>
    have hb : b < 256 := h b (List.mem_cons_self b rest)
    simp only [hexEncode, List.map_cons, List.flatten_cons] at ih ⊢
    rw [hexDecode_encodeByte_append b hb,
      ih (fun x hx => h x (List.mem_cons_of_mem _ hx))]
    rfl

theorem newline_not_mem_hexEncode (bs : List Nat) (h : ∀ b ∈ bs, b < 256) :
    Char.ofNat 10 ∉ hexEncode bs := by
  intro hmem
  rw [hexEncode] at hmem
  obtain ⟨l, hl, hcl⟩ := List.mem_flatten.mp hmem
  obtain ⟨b, hb, rfl⟩ := List.mem_map.mp hl
  have hb256 := h b hb
  have hhi := toHexChar_ne_newline (b / 16) (by omega)
  have hlo := toHexChar_ne_newline (b % 16) (by omega)
  simp only [hexEncodeByte, List.mem_cons, List.not_mem_nil, or_false] at hcl
  rcases hcl with h1 | h1
  · exact hhi h1.symm
  · exact hlo h1.symm

theorem length_record_with_checksum (t : List Nat) :
    (record_with_checksum t).length = t.length + 1 := by
  rw [record_with_checksum]
  split <;> simp

theorem record_with_checksum_eq (t : List Nat) :
    ∃ csb, record_with_checksum t = t ++ [csb] ∧ csb < 256 ∧ (t.sum + csb) % 256 = 0 := by
  rw [record_with_checksum]
  have hcs : checksum t = t.sum % 256 := by rw [checksum, and_255_eq_mod]
  by_cases h : checksum t = 0
  · exact ⟨0, by simp [h], by omega, by omega⟩
  · exact ⟨0x100 - checksum t, by simp [h], by omega, by omega⟩

theorem checksum_record_with_checksum (t : List Nat) :
    checksum (record_with_checksum t) = 0 := by
  obtain ⟨csb, heq, -, hmod⟩ := record_with_checksum_eq t
  rw [heq, checksum, and_255_eq_mod, List.sum_append]
  simpa using hmod

theorem mem_record_tag_lt (a : Nat) (l : List Nat) (hl : ∀ b ∈ l, b < 256) :
    ∀ b ∈ record_tag a l, b < 256 := by
  intro b hb
  simp only [record_tag, List.append_assoc, List.mem_append, List.mem_cons,
    List.not_mem_nil, or_false] at hb
  rcases hb with h | h | h | h
  · exact mem_to_binary_lt _ _ _ b h
  · exact mem_to_binary_lt _ _ _ b h
  · omega
  · exact hl b h

theorem mem_record_bytes_lt (a : Nat) (l : List Nat) (hl : ∀ b ∈ l, b < 256) :
    ∀ b ∈ record_with_checksum (record_tag a l), b < 256 := by
  obtain ⟨csb, heq, hcs, -⟩ := record_with_checksum_eq (record_tag a l)
  rw [heq]
  intro b hb
  rcases List.mem_append.mp hb with h | h
  · exact mem_record_tag_lt a l hl b h
  · rw [List.mem_singleton] at h
    omega

theorem record_tag_explicit (a : Nat) (l : List Nat) :
    record_tag a l =
      (l.length &&& 255) :: ((a >>> 8) &&& 255) :: (a &&& 255) :: 0 :: l := by
  simp [record_tag, to_binary, to_binary_le]

/-! ### Theorems: hex file parse and build -/



theorem parse_lines_end (rest : List (List Char)) (address : Nat) (acc : List Nat) :
    parse_lines (end_line :: rest) address acc = .ok acc := rfl

theorem parse_lines_record (address : Nat) (chunk : List Nat) (rest : List (List Char))
    (acc : List Nat) (hb : ∀ b ∈ chunk, b < 256) (hlen : chunk.length < 256)
    (haddr : address < 65536) :
    parse_lines (record_line address chunk :: rest) address acc =
      parse_lines rest (address + chunk.length) (acc ++ chunk) := by
  obtain ⟨csb, heq, hcs, hmod⟩ := record_with_checksum_eq (record_tag address chunk)
  have hbytes := mem_record_bytes_lt address chunk hb
  have hexp : record_with_checksum (record_tag address chunk) =
      (chunk.length &&& 255) :: ((address >>> 8) &&& 255) :: (address &&& 255) :: 0 ::
        (chunk ++ [csb]) := by
    rw [heq, record_tag_explicit]
    simp
  have hdec : hexDecode (hexEncode (record_with_checksum (record_tag address chunk))) =
      some (record_with_checksum (record_tag address chunk)) :=
    hexDecode_hexEncode _ hbytes
  have hchk : checksum (record_with_checksum (record_tag address chunk)) = 0 :=
    checksum_record_with_checksum _
  have hlength : (record_with_checksum (record_tag address chunk)).length =
      chunk.length + 5 := by
    rw [hexp]; simp
  have hsize : from_binary ((record_with_checksum (record_tag address chunk)).take 1) =
      chunk.length := by
    rw [hexp]
    show from_binary [chunk.length &&& 255] = chunk.length
    rw [from_binary_singleton, and_255_eq_mod, Nat.mod_eq_of_lt hlen]
  have haddr2 : from_binary
      (((record_with_checksum (record_tag address chunk)).drop 1).take 2) false = address := by
    rw [hexp]
    show from_binary [(address >>> 8) &&& 255, address &&& 255] false = address
    have h1 := from_binary_to_binary address 2 false
    rw [show to_binary address 2 false =
      [(address >>> 8) &&& 255, address &&& 255] from rfl] at h1
    rw [h1, Nat.mod_eq_of_lt (by norm_num; omega)]
  have htype : from_binary
      (((record_with_checksum (record_tag address chunk)).drop 3).take 1) = 0 := by
    rw [hexp]
    show from_binary [0] = 0
    exact from_binary_singleton 0 true
  have hline : ((record_with_checksum (record_tag address chunk)).drop 4).dropLast = chunk := by
    rw [hexp]
    show (chunk ++ [csb]).dropLast = chunk
    exact List.dropLast_concat
  rw [record_line]
  simp only [parse_lines, List.head?_cons, List.tail_cons, ne_eq, hdec, hsize, haddr2,
    htype, hline, hlength, hchk]
  norm_num



theorem pySplit_append (sep : Char) (l rest : List Char) (h : sep ∉ l) :
    pySplit sep (l ++ sep :: rest) = l :: pySplit sep rest := by
  induction l with
  | nil => simp [pySplit]
  | cons c cs ih =>
    have hc : ¬ c = sep := fun hc => h (hc ▸ List.mem_cons_self c cs)
    have hcs : sep ∉ cs := fun hm => h (List.mem_cons_of_mem _ hm)
    simp only [List.cons_append, pySplit, if_neg hc, List.append_eq, ih hcs]

theorem pySplit_no_sep (sep : Char) (l : List Char) (h : sep ∉ l) :
    pySplit sep l = [l] := by
  induction l with
  | nil => rfl
  | cons c cs ih =>
    have hc : ¬ c = sep := fun hc => h (hc ▸ List.mem_cons_self c cs)
    have hcs : sep ∉ cs := fun hm => h (List.mem_cons_of_mem _ hm)
    simp only [pySplit, if_neg hc, ih hcs]

theorem pySplit_flatten (ls : List (List Char)) (h : ∀ l ∈ ls, Char.ofNat 10 ∉ l) :
    pySplit (Char.ofNat 10) ((ls.map (· ++ [Char.ofNat 10])).flatten) = ls ++ [[]] := by
  induction ls with
  | nil => rfl
  | cons l rest ih =>
    simp only [List.map_cons, List.flatten_cons, List.append_assoc, List.singleton_append]
    rw [pySplit_append _ _ _ (h l (List.mem_cons_self l rest)),
      ih (fun x hx => h x (List.mem_cons_of_mem _ hx))]
    rfl

theorem newline_not_mem_record_line (a : Nat) (l : List Nat) (hl : ∀ b ∈ l, b < 256) :
    Char.ofNat 10 ∉ record_line a l := by
  rw [record_line]
  intro hm
  rcases List.mem_cons.mp hm with h1 | h1
  · exact absurd h1 (by decide)
  · exact newline_not_mem_hexEncode _ (mem_record_bytes_lt a l hl) h1

theorem newline_not_mem_build_hex_lines (fuel : Nat) :
    ∀ (content : List Nat) (address : Nat), content.length ≤ fuel →
      (∀ b ∈ content, b < 256) →
      ∀ l ∈ build_hex_lines content address, Char.ofNat 10 ∉ l := by
  induction fuel with
  | zero =>
    intro content a hlen hb l hl
    have hc : content = [] := List.eq_nil_of_length_eq_zero (by omega)
    rw [hc, build_hex_lines] at hl
    simp at hl
  | succ fuel ih =>
    intro content a hlen hb l hl
    rw [build_hex_lines] at hl
    split at hl
    · simp at hl
    · rename_i hne
      rcases List.mem_cons.mp hl with rfl | h2
      · exact newline_not_mem_record_line _ _ (fun b hbm => hb b (List.mem_of_mem_take hbm))
      · refine ih (content.drop 16) (a + 16) ?_
          (fun b hbm => hb b (List.mem_of_mem_drop hbm)) l h2
        have := List.length_pos.mpr hne
        simp only [List.length_drop]
        omega

theorem parse_build_aux (fuel : Nat) :
    ∀ (content : List Nat) (address : Nat) (acc : List Nat) (rest : List (List Char)),
      content.length ≤ fuel → (∀ b ∈ content, b < 256) →
      address + content.length ≤ 65536 →
      parse_lines (build_hex_lines content address ++ rest) address acc =
        parse_lines rest (address + content.length) (acc ++ content) := by
  induction fuel with
  | zero =>
    intro content a acc rest hlen hb haddr
    have hc : content = [] := List.eq_nil_of_length_eq_zero (by omega)
    subst hc
    rw [build_hex_lines]
    simp
  | succ fuel ih =>
    intro content a acc rest hlen hb haddr
    by_cases hc : content = []
    · subst hc
      rw [build_hex_lines]
      simp
    · rw [build_hex_lines, dif_neg hc, List.cons_append]
      have hb16 : ∀ b ∈ content.take 16, b < 256 :=
        fun b hbm => hb b (List.mem_of_mem_take hbm)
      have hlen16 : (content.take 16).length < 256 := by
        simp only [List.length_take]
        omega
      have haddr16 : a < 65536 := by
        have := List.length_pos.mpr hc
        omega
      rw [parse_lines_record a (content.take 16) _ acc hb16 hlen16 haddr16]
      by_cases hd : content.drop 16 = []
      · have hlen16' : content.length ≤ 16 := by
          have := congrArg List.length hd
          simp only [List.length_drop, List.length_nil] at this
          omega
        have htake : content.take 16 = content := List.take_of_length_le hlen16'
        rw [hd, htake, build_hex_lines]
        simp
      · have hlen17 : 16 < content.length := by
          have := List.length_pos.mpr hd
          simp only [List.length_drop] at this
          omega
        have htlen : (content.take 16).length = 16 := by
          simp only [List.length_take]
          omega
        rw [htlen,
          ih (content.drop 16) (a + 16) (acc ++ content.take 16) rest
            (by simp only [List.length_drop]; omega)
            (fun b hbm => hb b (List.mem_of_mem_drop hbm))
            (by simp only [List.length_drop]; omega)]
        have hcursor : a + 16 + (content.drop 16).length = a + content.length := by
          simp only [List.length_drop]
          omega
        rw [List.append_assoc, List.take_append_drop, hcursor]



theorem pySplit_joinWith (ls : List (List Char)) (hne : ls ≠ [])
    (h : ∀ l ∈ ls, Char.ofNat 10 ∉ l) :
    pySplit (Char.ofNat 10) (joinWith (Char.ofNat 10) ls) = ls := by
  induction ls with
  | nil => exact absurd rfl hne
  | cons l rest ih =>
    cases rest with
    | nil => exact pySplit_no_sep _ l (h l (List.mem_cons_self l []))
    | cons l2 rest2 =>
      rw [show joinWith (Char.ofNat 10) (l :: l2 :: rest2) =
        l ++ (Char.ofNat 10) :: joinWith (Char.ofNat 10) (l2 :: rest2) from rfl]
      rw [pySplit_append _ _ _ (h l (List.mem_cons_self l (l2 :: rest2)))]
      rw [ih (by simp) (fun x hx => h x (List.mem_cons_of_mem _ hx))]

/-- C1: parsing the hex text built from any 1024-byte image recovers exactly
that image. -/
theorem parse_hex_build_hex_roundtrip (content : List Nat)
    (hb : ∀ b ∈ content, b < 256) (hlen : content.length = 1024) :
    parse_hex_file (build_hex_file content) = .ok content := by
  rw [parse_hex_file, build_hex_file]
  have hnl : ∀ l ∈ build_hex_lines content START_ADDRESS ++ [end_line],
      Char.ofNat 10 ∉ l := by
    intro l hl
    rcases List.mem_append.mp hl with h | h
    · exact newline_not_mem_build_hex_lines content.length content START_ADDRESS
        le_rfl hb l h
    · rw [List.mem_singleton] at h
      subst h
      decide
  rw [pySplit_flatten _ hnl, List.append_assoc, List.singleton_append]
  rw [parse_build_aux content.length content START_ADDRESS [] [end_line, []] le_rfl hb
    (by rw [hlen, START_ADDRESS]; norm_num)]
  rw [parse_lines_end]
  simp

theorem parse_hex_build_hex_roundtrip_witness :
    parse_hex_file (build_hex_file (List.replicate 1024 0)) =
      .ok (List.replicate 1024 0) :=
  parse_hex_build_hex_roundtrip _
    (fun b hb => by rw [List.eq_of_mem_replicate hb]; omega)
    (List.length_replicate 1024 0)

/-- C8 counterexample: a single well-formed, checksummed data record at the
expected address 0x3600 with no end record parses successfully. -/
theorem parse_hex_no_end_record_counterexample :
    parse_hex_file [':', '0', '1', '3', '6', '0', '0', '0', '0', 'a', 'b', '1', 'e'] =
      .ok [0xAB] := rfl

/-- C8 (amended): a stream of well-formed sequential data records with no
type-0x01 end record parses successfully, returning the accumulated payload
(no TruncatedFile error exists in the code). -/
theorem parse_hex_data_records_without_end (content : List Nat) (hne : content ≠ [])
    (hb : ∀ b ∈ content, b < 256) (hlen : content.length ≤ 1024) :
    parse_hex_file (joinWith (Char.ofNat 10) (build_hex_lines content START_ADDRESS)) =
      .ok content := by
  rw [parse_hex_file]
  rw [pySplit_joinWith _ (by rw [build_hex_lines, dif_neg hne]; simp)
    (newline_not_mem_build_hex_lines content.length content START_ADDRESS le_rfl hb)]
  have h1 := parse_build_aux content.length content START_ADDRESS [] [] le_rfl hb
    (by rw [START_ADDRESS]; omega)
  rw [List.append_nil] at h1
  rw [h1, parse_lines]
  simp

theorem parse_hex_data_records_without_end_witness :
    parse_hex_file (joinWith (Char.ofNat 10) (build_hex_lines [0xAB] START_ADDRESS)) =
      .ok [0xAB] :=
  parse_hex_data_records_without_end [0xAB] (by simp) (by simp) (by simp)

/-! ### Theorems: BCD codec -/

/-- C9: the claimed round trip `from_bcd (to_bcd i) = i` fails at `i = 10`;
the Python source `num & 0x0F + (num >> 4) * 10` parses as
`num & (0x0F + (num >> 4) * 10)`, so decoding returns 16. Likewise for the
two-byte pair codec used by the version field. -/
theorem from_bcd_to_bcd_bug :
    from_bcd (to_bcd 10) = 16 ∧ from_bcd (to_bcd 10) ≠ 10 ∧
    from_bcd2 (to_bcd2 (10, 0)) = (16, 0) := by decide

/-! ### Theorems: EEPROM image, typed fields and transport -/



theorem EEPROM.length_set (e : EEPROM) (pos : Nat) (data : List Nat)
    (h : pos + data.length ≤ e.content.length) :
    (e.set pos data).content.length = e.content.length := by
  simp only [EEPROM.set, List.length_append, List.length_take, List.length_drop]
  omega

theorem EEPROM.get_set_within (e : EEPROM) (pos : Nat) (data : List Nat) (a n : Nat)
    (hpos : pos ≤ e.content.length) (han : a + n ≤ data.length) :
    (e.set pos data).get (pos + a) n = (data.drop a).take n := by
  have hA : (e.content.take pos).length = pos := by
    simp only [List.length_take]
    omega
  rw [EEPROM.set, EEPROM.get]
  change ((e.content.take pos ++ data ++ e.content.drop (pos + data.length)).drop
    (pos + a)).take n = _
  rw [List.append_assoc]
  rw [List.drop_append_eq_append_drop, hA,
    List.drop_eq_nil_of_le (by rw [hA]; omega), List.nil_append,
    show pos + a - pos = a by omega,
    List.drop_append_eq_append_drop,
    Nat.sub_eq_zero_of_le (show a ≤ data.length by omega), List.drop_zero,
    List.take_append_eq_append_take, List.length_drop,
    Nat.sub_eq_zero_of_le (by omega), List.take_zero, List.append_nil]

theorem EEPROM.get_set_left (e : EEPROM) (pos : Nat) (data : List Nat) (a n : Nat)
    (ha : a + n ≤ pos) (hpos : pos ≤ e.content.length) :
    (e.set pos data).get a n = e.get a n := by
  rw [EEPROM.set, EEPROM.get, EEPROM.get]
  change ((e.content.take pos ++ data ++ e.content.drop (pos + data.length)).drop a).take n = _
  rw [List.append_assoc]
  rw [List.drop_append_eq_append_drop,
    List.take_append_eq_append_take, List.length_drop, List.length_take,
    Nat.sub_eq_zero_of_le (by omega), List.take_zero, List.append_nil,
    List.drop_take, List.take_take, Nat.min_eq_left (by omega)]

theorem EEPROM.get_set_right (e : EEPROM) (pos : Nat) (data : List Nat) (a n : Nat)
    (ha : pos + data.length ≤ a) (hpos : pos ≤ e.content.length) :
    (e.set pos data).get a n = e.get a n := by
  have hA : (e.content.take pos).length = pos := by
    simp only [List.length_take]
    omega
  rw [EEPROM.set, EEPROM.get, EEPROM.get]
  change ((e.content.take pos ++ data ++ e.content.drop (pos + data.length)).drop a).take n = _
  rw [List.append_assoc]
  rw [List.drop_append_eq_append_drop, hA,
    List.drop_eq_nil_of_le (by rw [hA]; omega), List.nil_append,
    List.drop_append_eq_append_drop,
    List.drop_eq_nil_of_le (show data.length ≤ a - pos by omega), List.nil_append,
    List.drop_drop]
  congr 2
  omega

theorem EEPROM.get_set_frame (e : EEPROM) (p m : Nat) (data : List Nat) (a n : Nat)
    (hdm : data.length ≤ m) (hbound : p + m ≤ e.content.length)
    (hdisj : a + n ≤ p ∨ p + m ≤ a) :
    (e.set p data).get a n = e.get a n := by
  rcases hdisj with h | h
  · exact EEPROM.get_set_left e p data a n h (by omega)
  · exact EEPROM.get_set_right e p data a n (by omega) (by omega)



theorem length_utf16le_encode (us : List Nat) :
    (utf16le_encode us).length = 2 * us.length := by
  induction us with
  | nil => rfl
  | cons u rest ih =>
    simp only [utf16le_encode, List.map_cons, List.flatten_cons, List.length_append,
      List.length_cons, List.length_nil] at ih ⊢
    omega

theorem mem_utf16le_encode_lt (us : List Nat) : ∀ b ∈ utf16le_encode us, b < 256 := by
  intro b hb
  rw [utf16le_encode] at hb
  obtain ⟨l, hl, hbl⟩ := List.mem_flatten.mp hb
  obtain ⟨u, -, rfl⟩ := List.mem_map.mp hl
  simp only [List.mem_cons, List.not_mem_nil, or_false] at hbl
  rcases hbl with rfl | rfl
  · omega
  · omega

theorem utf16le_decode_encode (us : List Nat) (h : ∀ u ∈ us, u < 65536) :
    utf16le_decode (utf16le_encode us) = some us := by
  induction us with
  | nil => rfl
  | cons u rest ih =>
    have hu : u < 65536 := h u (List.mem_cons_self u rest)
    simp only [utf16le_encode, List.map_cons, List.flatten_cons] at ih ⊢
    rw [List.cons_append, List.cons_append, List.nil_append, utf16le_decode,
      ih (fun x hx => h x (List.mem_cons_of_mem _ hx))]
    have huu : u % 256 + 256 * (u / 256 % 256) = u := by omega
    simp [huu]

theorem str_value_get_set (e : EEPROM) (position max_desc_size : Nat) (s : List Nat)
    (hu : ∀ u ∈ s, u < 65536) (hmax : 2 * s.length + 2 ≤ max_desc_size)
    (hpos : position ≤ e.content.length) :
    str_value_get (str_value_set e position s) position max_desc_size = some s := by
  have hel : (utf16le_encode s).length = 2 * s.length := length_utf16le_encode s
  have hdl : (((utf16le_encode s).length + 2) :: 0x03 :: utf16le_encode s).length =
      (utf16le_encode s).length + 2 := by simp
  rw [str_value_set, str_value_get]
  have h1 : (e.set position (((utf16le_encode s).length + 2) :: 0x03 :: utf16le_encode s)).get
      position 1 = [(utf16le_encode s).length + 2] := by
    have h := EEPROM.get_set_within e position
      (((utf16le_encode s).length + 2) :: 0x03 :: utf16le_encode s) 0 1 hpos
      (by rw [hdl]; omega)
    simpa using h
  have h2 : (e.set position (((utf16le_encode s).length + 2) :: 0x03 :: utf16le_encode s)).get
      (position + 1) 1 = [0x03] := by
    have h := EEPROM.get_set_within e position
      (((utf16le_encode s).length + 2) :: 0x03 :: utf16le_encode s) 1 1 hpos
      (by rw [hdl]; omega)
    rw [h]
    rfl
  have h3 : (e.set position (((utf16le_encode s).length + 2) :: 0x03 :: utf16le_encode s)).get
      (position + 2) (utf16le_encode s).length = utf16le_encode s := by
    have h := EEPROM.get_set_within e position
      (((utf16le_encode s).length + 2) :: 0x03 :: utf16le_encode s) 2 (utf16le_encode s).length
      hpos (by rw [hdl]; omega)
    rw [h]
    show ((utf16le_encode s).drop 0).take (utf16le_encode s).length = _
    rw [List.drop_zero, List.take_of_length_le le_rfl]
  rw [h1, from_binary_singleton]
  rw [if_pos (by constructor <;> omega)]
  rw [if_pos h2]
  rw [show (utf16le_encode s).length + 2 - 2 = (utf16le_encode s).length by omega, h3]
  exact utf16le_decode_encode s hu



theorem to_bcd_small (i : Nat) (h : i ≤ 9) : to_bcd i = i := by
  rw [to_bcd]
  have h10 : i / 10 = 0 := by omega
  have hm : i % 10 = i := by omega
  rw [h10, hm, Nat.zero_shiftLeft, Nat.zero_or]

theorem from_bcd_small (i : Nat) (h : i ≤ 9) : from_bcd i = i := by
  rw [from_bcd]
  have h4 : i >>> 4 = 0 := by rw [Nat.shiftRight_eq_div_pow]; omega
  rw [h4]
  have h15 := Nat.and_pow_two_sub_one_eq_mod i 4
  norm_num at h15 ⊢
  rw [h15]
  omega

theorem bcd2_roundtrip (i j : Nat) (hi : i ≤ 9) (hj : j ≤ 9) :
    from_bcd2 (to_bcd2 (i, j) % 65536) = (i, j) := by
  have hij : to_bcd2 (i, j) = 256 * i + j := by
    rw [to_bcd2]
    show (to_bcd i <<< 8) ||| to_bcd j = _
    rw [to_bcd_small i hi, to_bcd_small j hj, Nat.shiftLeft_eq, Nat.mul_comm i (2 ^ 8),
      ← Nat.mul_add_lt_is_or (show j < 2 ^ 8 by omega) i]
  rw [hij, Nat.mod_eq_of_lt (by omega), from_bcd2]
  have h1 : (256 * i + j) >>> 8 = i := by rw [Nat.shiftRight_eq_div_pow]; norm_num; omega
  have h2 : (256 * i + j) &&& 0xFF = j := by rw [and_255_eq_mod]; omega
  rw [h1, h2, from_bcd_small i hi, from_bcd_small j hj]

theorem to_div2_even (v : Nat) (h : v % 2 = 0) : to_div2 v = v / 2 := by
  simp only [to_div2]
  rw [if_neg (by omega)]

theorem length_build_baudrate_cfg (en : BaudEntry) : (build_baudrate_cfg en).length = 10 := by
  simp [build_baudrate_cfg, length_to_binary]

theorem mem_build_baudrate_cfg_lt (en : BaudEntry) : ∀ b ∈ build_baudrate_cfg en, b < 256 := by
  intro b hb
  simp only [build_baudrate_cfg, List.append_assoc, List.mem_append, List.mem_cons,
    List.not_mem_nil, or_false] at hb
  rcases hb with h | h | h | h | h
  · exact mem_to_binary_lt _ _ _ b h
  · exact mem_to_binary_lt _ _ _ b h
  · exact mem_to_binary_lt _ _ _ b h
  · omega
  · exact mem_to_binary_lt _ _ _ b h

theorem parse_build_baudrate_cfg (en : BaudEntry) (h1 : en.1 < 65536)
    (h2 : en.2.1 < 65536) (h3 : en.2.2.1 < 256) (h4 : en.2.2.2 < 4294967296) :
    parse_baudrate_cfg (build_baudrate_cfg en) = en := by
  obtain ⟨g, t, p, r⟩ := en
  simp only at h1 h2 h3 h4
  have lA : (to_binary g 2 false).length = 2 := length_to_binary g 2 false
  have lB : (to_binary t 2 false).length = 2 := length_to_binary t 2 false
  have lC : (to_binary p 1).length = 1 := length_to_binary p 1 true
  rw [build_baudrate_cfg]
  show parse_baudrate_cfg (to_binary g 2 false ++ to_binary t 2 false ++
    to_binary p 1 ++ [0x00] ++ to_binary r 4) = (g, t, p, r)
  rw [List.append_assoc, List.append_assoc, List.append_assoc]
  rw [parse_baudrate_cfg]
  have e1 : (to_binary g 2 false ++ (to_binary t 2 false ++ (to_binary p 1 ++
      ([0x00] ++ to_binary r 4)))).take 2 = to_binary g 2 false :=
    List.take_left' lA
  have e2 : (to_binary g 2 false ++ (to_binary t 2 false ++ (to_binary p 1 ++
      ([0x00] ++ to_binary r 4)))).drop 2 = to_binary t 2 false ++ (to_binary p 1 ++
      ([0x00] ++ to_binary r 4)) :=
    List.drop_left' lA
  have e3 : (to_binary t 2 false ++ (to_binary p 1 ++ ([0x00] ++ to_binary r 4))).drop 2 =
      to_binary p 1 ++ ([0x00] ++ to_binary r 4) :=
    List.drop_left' lB
  have e4 : (to_binary p 1 ++ ([0x00] ++ to_binary r 4)).drop 1 =
      [0x00] ++ to_binary r 4 :=
    List.drop_left' lC
  have hfb1 : from_binary ((to_binary g 2 false ++ (to_binary t 2 false ++ (to_binary p 1 ++
      ([0x00] ++ to_binary r 4)))).take 2) false = g := by
    rw [e1, from_binary_to_binary, Nat.mod_eq_of_lt (by norm_num; omega)]
  have hfb2 : from_binary (((to_binary g 2 false ++ (to_binary t 2 false ++ (to_binary p 1 ++
      ([0x00] ++ to_binary r 4)))).drop 2).take 2) false = t := by
    rw [e2, List.take_left' lB, from_binary_to_binary, Nat.mod_eq_of_lt (by norm_num; omega)]
  have hfb3 : from_binary (((to_binary g 2 false ++ (to_binary t 2 false ++ (to_binary p 1 ++
      ([0x00] ++ to_binary r 4)))).drop 4).take 1) = p := by
    rw [show (4 : Nat) = 2 + 2 by rfl, ← List.drop_drop, e2, e3, List.take_left' lC,
      from_binary_to_binary, Nat.mod_eq_of_lt (by norm_num; omega)]
  have hfb4 : from_binary (((to_binary g 2 false ++ (to_binary t 2 false ++ (to_binary p 1 ++
      ([0x00] ++ to_binary r 4)))).drop 6).take 4) = r := by
    rw [show (6 : Nat) = 2 + (2 + (1 + 1)) by rfl, ← List.drop_drop, ← List.drop_drop,
      ← List.drop_drop, e2, e3, e4]
    have e5 : (([0x00] : List Nat) ++ to_binary r 4).drop 1 = to_binary r 4 :=
      List.drop_left' (by rfl)
    rw [e5]
    rw [List.take_of_length_le (by rw [length_to_binary])]
    rw [from_binary_to_binary, Nat.mod_eq_of_lt (by norm_num; omega)]
  rw [hfb1, hfb2, hfb3, hfb4]



theorem flatten_build_length (tbl : List BaudEntry) :
    ((tbl.map build_baudrate_cfg).flatten).length = 10 * tbl.length := by
  induction tbl with
  | nil => rfl
  | cons en rest ih =>
    simp only [List.map_cons, List.flatten_cons, List.length_append,
      length_build_baudrate_cfg, List.length_cons, ih]
    omega

theorem mem_flatten_build_lt (tbl : List BaudEntry) :
    ∀ b ∈ (tbl.map build_baudrate_cfg).flatten, b < 256 := by
  intro b hb
  obtain ⟨l, hl, hbl⟩ := List.mem_flatten.mp hb
  obtain ⟨en, -, rfl⟩ := List.mem_map.mp hl
  exact mem_build_baudrate_cfg_lt en b hbl

theorem flatten_build_slice (tbl : List BaudEntry) :
    ∀ (k : Nat) (hk : k < tbl.length),
      (((tbl.map build_baudrate_cfg).flatten).drop (10 * k)).take 10 =
        build_baudrate_cfg tbl[k] := by
  induction tbl with
  | nil =>
    intro k hk
    simp at hk
  | cons en rest ih =>
    intro k hk
    cases k with
    | zero =>
      simp only [List.map_cons, List.flatten_cons, Nat.mul_zero, List.drop_zero,
        List.getElem_cons_zero]
      exact List.take_left' (length_build_baudrate_cfg en)
    | succ k =>
      simp only [List.map_cons, List.flatten_cons, List.getElem_cons_succ]
      have hstep : (10 : Nat) * (k + 1) = (build_baudrate_cfg en).length + 10 * k := by
        rw [length_build_baudrate_cfg]
        omega
      rw [hstep, List.drop_append]
      exact ih k (by simpa using hk)

theorem get_baudrate_table_set (e : EEPROM) (tbl : List BaudEntry)
    (_he : 320 ≤ e.content.length) (hlen : tbl.length = 32)
    (hb : ∀ en ∈ tbl, en.1 < 65536 ∧ en.2.1 < 65536 ∧ en.2.2.1 < 256 ∧
      en.2.2.2 < 4294967296) :
    (e.set_baudrate_table tbl).get_baudrate_table = tbl := by
  rw [EEPROM.set_baudrate_table, EEPROM.get_baudrate_table]
  have hdlen : ((tbl.map build_baudrate_cfg).flatten).length = 320 := by
    rw [flatten_build_length, hlen]
  have hget : (e.set POS_BAUDRATE_TABLE ((tbl.map build_baudrate_cfg).flatten)).get
      POS_BAUDRATE_TABLE SIZE_BAUDRATE_TABLE = (tbl.map build_baudrate_cfg).flatten := by
    have h := EEPROM.get_set_within e POS_BAUDRATE_TABLE
      ((tbl.map build_baudrate_cfg).flatten) 0 SIZE_BAUDRATE_TABLE
      (by simp [POS_BAUDRATE_TABLE]) (by rw [hdlen]; rfl)
    simpa [SIZE_BAUDRATE_TABLE, SIZE_BAUDRATES, SIZE_BAUDRATE_CFG, hdlen,
      List.take_of_length_le] using h
  rw [hget]
  apply List.ext_getElem
  · simp [hlen, SIZE_BAUDRATES]
  · intro k hk1 hk2
    simp only [List.getElem_map, List.getElem_range]
    have hk32 : k < 32 := by simpa [SIZE_BAUDRATES] using hk1
    rw [show SIZE_BAUDRATE_CFG * k = 10 * k by rfl,
      show SIZE_BAUDRATE_CFG = 10 by rfl,
      flatten_build_slice tbl k (by omega)]
    have hbk := hb tbl[k] (List.getElem_mem hk2)
    exact parse_build_baudrate_cfg _ hbk.1 hbk.2.1 hbk.2.2.1 hbk.2.2.2



theorem get_set_self (e : EEPROM) (p : Nat) (data : List Nat)
    (hpos : p ≤ e.content.length) :
    (e.set p data).get p data.length = data := by
  have h := EEPROM.get_set_within e p data 0 data.length hpos (by omega)
  simpa [List.take_of_length_le] using h

theorem get_set_self' (e : EEPROM) (p k : Nat) (data : List Nat)
    (hpos : p ≤ e.content.length) (hk : data.length = k) :
    (e.set p data).get p k = data := by
  subst hk
  exact get_set_self e p data hpos

theorem applyOpt_step {α : Type} (f : EEPROM → α → EEPROM) (x : Option α) (e : EEPROM)
    (p m : Nat) (he : e.content.length = 1024) (hpm : p + m ≤ 1024)
    (hspec : ∀ a, x = some a → ∃ data, f e a = e.set p data ∧ data.length ≤ m) :
    (applyOpt f x e).content.length = 1024 ∧
    ∀ a n, a + n ≤ p ∨ p + m ≤ a → (applyOpt f x e).get a n = e.get a n := by
  cases x with
  | none => exact ⟨he, fun _ _ _ => rfl⟩
  | some y =>
    obtain ⟨data, hfd, hdm⟩ := hspec y rfl
    refine ⟨?_, ?_⟩
    · show (f e y).content.length = 1024
      rw [hfd, EEPROM.length_set e p data (by omega), he]
    · intro a n hd
      show (f e y).get a n = e.get a n
      rw [hfd]
      exact EEPROM.get_set_frame e p m data a n hdm (by omega) hd

theorem str_value_get_congr (e e' : EEPROM) (pos max p m : Nat)
    (hmax : 2 ≤ max) (hdisj : pos + max ≤ p ∨ p + m ≤ pos)
    (hagree : ∀ a n, a + n ≤ p ∨ p + m ≤ a → e'.get a n = e.get a n) :
    str_value_get e' pos max = str_value_get e pos max := by
  simp only [str_value_get]
  have h1 : e'.get pos 1 = e.get pos 1 := by
    apply hagree
    omega
  rw [h1]
  by_cases hc : from_binary (e.get pos 1) ≤ max ∧ 2 ≤ from_binary (e.get pos 1)
  · rw [if_pos hc, if_pos hc]
    have h2 : e'.get (pos + 1) 1 = e.get (pos + 1) 1 := by
      apply hagree
      omega
    rw [h2]
    by_cases h3 : e.get (pos + 1) 1 = [0x03]
    · rw [if_pos h3, if_pos h3]
      have h4 : e'.get (pos + 2) (from_binary (e.get pos 1) - 2) =
          e.get (pos + 2) (from_binary (e.get pos 1) - 2) := by
        apply hagree
        rcases hc with ⟨hcu, hcl⟩
        omega
      rw [h4]
    · rw [if_neg h3, if_neg h3]
  · rw [if_neg hc, if_neg hc]



/-- C2 (amended): writing a ValueSet of known fields through `set_values` and
reading back through `get_values` returns every written value, provided each
value satisfies its field's encoding constraints (`ValueSet.Valid`): ids and
BCD version digits in range, `max_power` even and at most 510, strings within
their descriptor capacity, and a 32-entry in-range baudrate table. -/
theorem get_values_set_values (e : EEPROM) (v : ValueSet)
    (he : e.content.length = 1024) (hv : v.Valid) :
    (∀ s, v.product_string = some s →
      ((e.set_values v).get_values).product_string = some s) ∧
    (∀ s, v.serial_number = some s →
      ((e.set_values v).get_values).serial_number = some s) ∧
    (∀ n, v.product_id = some n → ((e.set_values v).get_values).product_id = some n) ∧
    (∀ n, v.vendor_id = some n → ((e.set_values v).get_values).vendor_id = some n) ∧
    (∀ p, v.version = some p → ((e.set_values v).get_values).version = some p) ∧
    (∀ b, v.bus_powered = some b →
      ((e.set_values v).get_values).bus_powered = some b) ∧
    (∀ n, v.max_power = some n → ((e.set_values v).get_values).max_power = some n) ∧
    (∀ b, v.locked = some b → ((e.set_values v).get_values).locked = some b) ∧
    (∀ n, v.part_number = some n →
      ((e.set_values v).get_values).part_number = some n) ∧
    (∀ s, v.vendor_string = some s →
      ((e.set_values v).get_values).vendor_string = some s) ∧
    (∀ t, v.baudrate_table = some t →
      ((e.set_values v).get_values).baudrate_table = some t) := by
  obtain ⟨hps, hsn, hpid, hvid, hver, hmp, hpn, hvs, hbt⟩ := hv
  rw [EEPROM.set_values]
  set e1 := applyOpt EEPROM.set_product_string v.product_string e with he1
  set e2 := applyOpt EEPROM.set_serial_number v.serial_number e1 with he2
  set e3 := applyOpt EEPROM.set_product_id v.product_id e2 with he3
  set e4 := applyOpt EEPROM.set_vendor_id v.vendor_id e3 with he4
  set e5 := applyOpt EEPROM.set_version v.version e4 with he5
  set e6 := applyOpt EEPROM.set_bus_powered v.bus_powered e5 with he6
  set e7 := applyOpt EEPROM.set_max_power v.max_power e6 with he7
  set e8 := applyOpt EEPROM.set_locked v.locked e7 with he8
  set e9 := applyOpt EEPROM.set_part_number v.part_number e8 with he9
  set e10 := applyOpt EEPROM.set_vendor_string v.vendor_string e9 with he10
  set e11 := applyOpt EEPROM.set_baudrate_table v.baudrate_table e10 with he11
  obtain ⟨L1, A1⟩ := applyOpt_step EEPROM.set_product_string v.product_string e 520 125 he
    (by norm_num)
    (fun s hs => ⟨((utf16le_encode s).length + 2) :: 0x03 :: utf16le_encode s, rfl, by
      simp only [hs] at hps
      have h125 : 2 * s.length + 2 ≤ 125 := hps.2
      simp only [List.length_cons, length_utf16le_encode]
      omega⟩)
  rw [← he1] at L1 A1
  obtain ⟨L2, A2⟩ := applyOpt_step EEPROM.set_serial_number v.serial_number e1 775 63 L1
    (by norm_num)
    (fun s hs => ⟨((utf16le_encode s).length + 2) :: 0x03 :: utf16le_encode s, rfl, by
      simp only [hs] at hsn
      have h63 : 2 * s.length + 2 ≤ 63 := hsn.2
      simp only [List.length_cons, length_utf16le_encode]
      omega⟩)
  rw [← he2] at L2 A2
  obtain ⟨L3, A3⟩ := applyOpt_step EEPROM.set_product_id v.product_id e2 914 2 L2
    (by norm_num)
    (fun n _ => ⟨to_binary n 2, rfl, by simp [length_to_binary]⟩)
  rw [← he3] at L3 A3
  obtain ⟨L4, A4⟩ := applyOpt_step EEPROM.set_vendor_id v.vendor_id e3 912 2 L3
    (by norm_num)
    (fun n _ => ⟨to_binary n 2, rfl, by simp [length_to_binary]⟩)
  rw [← he4] at L4 A4
  obtain ⟨L5, A5⟩ := applyOpt_step EEPROM.set_version v.version e4 916 2 L4
    (by norm_num)
    (fun p _ => ⟨to_binary (to_bcd2 p) 2, rfl, by simp [length_to_binary]⟩)
  rw [← he5] at L5 A5
  obtain ⟨L6, A6⟩ := applyOpt_step EEPROM.set_bus_powered v.bus_powered e5 929 1 L5
    (by norm_num)
    (fun b _ => ⟨to_binary (if b then 0xC0 else 0x80) 1, rfl, by simp [length_to_binary]⟩)
  rw [← he6] at L6 A6
  obtain ⟨L7, A7⟩ := applyOpt_step EEPROM.set_max_power v.max_power e6 930 1 L6
    (by norm_num)
    (fun n _ => ⟨to_binary (to_div2 n) 1, rfl, by simp [length_to_binary]⟩)
  rw [← he7] at L7 A7
  obtain ⟨L8, A8⟩ := applyOpt_step EEPROM.set_locked v.locked e7 1023 1 L7
    (by norm_num)
    (fun b _ => ⟨to_binary (if b then LCK_LOCKED else LCK_UNLOCKED) 1, rfl, by
      simp [length_to_binary]⟩)
  rw [← he8] at L8 A8
  obtain ⟨L9, A9⟩ := applyOpt_step EEPROM.set_part_number v.part_number e8 511 1 L8
    (by norm_num)
    (fun n _ => ⟨to_binary n 1, rfl, by simp [length_to_binary]⟩)
  rw [← he9] at L9 A9
  obtain ⟨L10, A10⟩ := applyOpt_step EEPROM.set_vendor_string v.vendor_string e9 963 24 L9
    (by norm_num)
    (fun s hs => ⟨((utf16le_encode s).length + 2) :: 0x03 :: utf16le_encode s, rfl, by
      simp only [hs] at hvs
      have h24 : 2 * s.length + 2 ≤ 24 := hvs.2
      simp only [List.length_cons, length_utf16le_encode]
      omega⟩)
  rw [← he10] at L10 A10
  obtain ⟨L11, A11⟩ := applyOpt_step EEPROM.set_baudrate_table v.baudrate_table e10 0 320 L10
    (by norm_num)
    (fun t ht => ⟨(t.map build_baudrate_cfg).flatten, rfl, by
      simp only [ht] at hbt
      rw [flatten_build_length, hbt.1]⟩)
  rw [← he11] at L11 A11
  refine ⟨?_, ?_, ?_, ?_, ?_, ?_, ?_, ?_, ?_, ?_, ?_⟩
  · -- product_string
    intro s hs
    rw [show (EEPROM.get_values e11).product_string = str_value_get e11 520 125 from rfl]
    rw [str_value_get_congr e10 e11 520 125 0 320 (by norm_num) (by omega) A11,
      str_value_get_congr e9 e10 520 125 963 24 (by norm_num) (by omega) A10,
      str_value_get_congr e8 e9 520 125 511 1 (by norm_num) (by omega) A9,
      str_value_get_congr e7 e8 520 125 1023 1 (by norm_num) (by omega) A8,
      str_value_get_congr e6 e7 520 125 930 1 (by norm_num) (by omega) A7,
      str_value_get_congr e5 e6 520 125 929 1 (by norm_num) (by omega) A6,
      str_value_get_congr e4 e5 520 125 916 2 (by norm_num) (by omega) A5,
      str_value_get_congr e3 e4 520 125 912 2 (by norm_num) (by omega) A4,
      str_value_get_congr e2 e3 520 125 914 2 (by norm_num) (by omega) A3,
      str_value_get_congr e1 e2 520 125 775 63 (by norm_num) (by omega) A2]
    rw [he1, hs]
    rw [show applyOpt EEPROM.set_product_string (some s) e = str_value_set e 520 s from rfl]
    simp only [hs] at hps
    exact str_value_get_set e 520 125 s hps.1 hps.2 (by rw [he]; norm_num)
  · -- serial_number
    intro s hs
    rw [show (EEPROM.get_values e11).serial_number = str_value_get e11 775 63 from rfl]
    rw [str_value_get_congr e10 e11 775 63 0 320 (by norm_num) (by omega) A11,
      str_value_get_congr e9 e10 775 63 963 24 (by norm_num) (by omega) A10,
      str_value_get_congr e8 e9 775 63 511 1 (by norm_num) (by omega) A9,
      str_value_get_congr e7 e8 775 63 1023 1 (by norm_num) (by omega) A8,
      str_value_get_congr e6 e7 775 63 930 1 (by norm_num) (by omega) A7,
      str_value_get_congr e5 e6 775 63 929 1 (by norm_num) (by omega) A6,
      str_value_get_congr e4 e5 775 63 916 2 (by norm_num) (by omega) A5,
      str_value_get_congr e3 e4 775 63 912 2 (by norm_num) (by omega) A4,
      str_value_get_congr e2 e3 775 63 914 2 (by norm_num) (by omega) A3]
    rw [he2, hs]
    rw [show applyOpt EEPROM.set_serial_number (some s) e1 = str_value_set e1 775 s from rfl]
    simp only [hs] at hsn
    exact str_value_get_set e1 775 63 s hsn.1 hsn.2 (by rw [L1]; norm_num)
  · -- product_id
    intro n hn
    rw [show (EEPROM.get_values e11).product_id = some (from_binary (e11.get 914 2)) from rfl]
    rw [A11 914 2 (by omega), A10 914 2 (by omega), A9 914 2 (by omega),
      A8 914 2 (by omega), A7 914 2 (by omega), A6 914 2 (by omega),
      A5 914 2 (by omega), A4 914 2 (by omega)]
    rw [he3, hn]
    rw [show (applyOpt EEPROM.set_product_id (some n) e2).get 914 2 =
      (e2.set 914 (to_binary n 2)).get 914 2 from rfl]
    rw [get_set_self' e2 914 2 (to_binary n 2) (by rw [L2]; norm_num)
      (length_to_binary n 2 true)]
    rw [from_binary_to_binary]
    simp only [hn] at hpid
    rw [Nat.mod_eq_of_lt (by norm_num; omega)]
  · -- vendor_id
    intro n hn
    rw [show (EEPROM.get_values e11).vendor_id = some (from_binary (e11.get 912 2)) from rfl]
    rw [A11 912 2 (by omega), A10 912 2 (by omega), A9 912 2 (by omega),
      A8 912 2 (by omega), A7 912 2 (by omega), A6 912 2 (by omega),
      A5 912 2 (by omega)]
    rw [he4, hn]
    rw [show (applyOpt EEPROM.set_vendor_id (some n) e3).get 912 2 =
      (e3.set 912 (to_binary n 2)).get 912 2 from rfl]
    rw [get_set_self' e3 912 2 (to_binary n 2) (by rw [L3]; norm_num)
      (length_to_binary n 2 true)]
    rw [from_binary_to_binary]
    simp only [hn] at hvid
    rw [Nat.mod_eq_of_lt (by norm_num; omega)]
  · -- version
    intro pr hn
    obtain ⟨i, j⟩ := pr
    rw [show (EEPROM.get_values e11).version =
      some (from_bcd2 (from_binary (e11.get 916 2))) from rfl]
    rw [A11 916 2 (by omega), A10 916 2 (by omega), A9 916 2 (by omega),
      A8 916 2 (by omega), A7 916 2 (by omega), A6 916 2 (by omega)]
    rw [he5, hn]
    rw [show (applyOpt EEPROM.set_version (some (i, j)) e4).get 916 2 =
      (e4.set 916 (to_binary (to_bcd2 (i, j)) 2)).get 916 2 from rfl]
    rw [get_set_self' e4 916 2 (to_binary (to_bcd2 (i, j)) 2) (by rw [L4]; norm_num)
      (length_to_binary (to_bcd2 (i, j)) 2 true)]
    rw [from_binary_to_binary]
    simp only [hn] at hver
    rw [show (256 : Nat) ^ 2 = 65536 by norm_num, bcd2_roundtrip i j hver.1 hver.2]
  · -- bus_powered
    intro b hn
    rw [show (EEPROM.get_values e11).bus_powered =
      some (from_binary (e11.get 929 1) &&& 0x40 != 0) from rfl]
    rw [A11 929 1 (by omega), A10 929 1 (by omega), A9 929 1 (by omega),
      A8 929 1 (by omega), A7 929 1 (by omega)]
    rw [he6, hn]
    rw [show (applyOpt EEPROM.set_bus_powered (some b) e5).get 929 1 =
      (e5.set 929 (to_binary (if b then 0xC0 else 0x80) 1)).get 929 1 from rfl]
    rw [get_set_self' e5 929 1 (to_binary (if b then 0xC0 else 0x80) 1)
      (by rw [L5]; norm_num) (length_to_binary _ 1 true)]
    rw [from_binary_to_binary]
    cases b <;> rfl
  · -- max_power
    intro n hn
    rw [show (EEPROM.get_values e11).max_power =
      some (from_binary (e11.get 930 1) * 2) from rfl]
    rw [A11 930 1 (by omega), A10 930 1 (by omega), A9 930 1 (by omega),
      A8 930 1 (by omega)]
    rw [he7, hn]
    rw [show (applyOpt EEPROM.set_max_power (some n) e6).get 930 1 =
      (e6.set 930 (to_binary (to_div2 n) 1)).get 930 1 from rfl]
    rw [get_set_self' e6 930 1 (to_binary (to_div2 n) 1) (by rw [L6]; norm_num)
      (length_to_binary _ 1 true)]
    rw [from_binary_to_binary]
    simp only [hn] at hmp
    rw [to_div2_even n hmp.1]
    have hhalf : n / 2 % 256 ^ 1 * 2 = n := by
      norm_num
      omega
    rw [hhalf]
  · -- locked
    intro b hn
    rw [show (EEPROM.get_values e11).locked =
      some (from_binary (e11.get 1023 1) == 0) from rfl]
    rw [A11 1023 1 (by omega), A10 1023 1 (by omega), A9 1023 1 (by omega)]
    rw [he8, hn]
    rw [show (applyOpt EEPROM.set_locked (some b) e7).get 1023 1 =
      (e7.set 1023 (to_binary (if b then LCK_LOCKED else LCK_UNLOCKED) 1)).get 1023 1 from rfl]
    rw [get_set_self' e7 1023 1 (to_binary (if b then LCK_LOCKED else LCK_UNLOCKED) 1)
      (by rw [L7]; norm_num) (length_to_binary _ 1 true)]
    rw [from_binary_to_binary]
    cases b <;> rfl
  · -- part_number
    intro n hn
    rw [show (EEPROM.get_values e11).part_number =
      some (from_binary (e11.get 511 1)) from rfl]
    rw [A11 511 1 (by omega), A10 511 1 (by omega)]
    rw [he9, hn]
    rw [show (applyOpt EEPROM.set_part_number (some n) e8).get 511 1 =
      (e8.set 511 (to_binary n 1)).get 511 1 from rfl]
    rw [get_set_self' e8 511 1 (to_binary n 1) (by rw [L8]; norm_num)
      (length_to_binary n 1 true)]
    rw [from_binary_to_binary]
    simp only [hn] at hpn
    rw [Nat.mod_eq_of_lt (by norm_num; omega)]
  · -- vendor_string
    intro s hs
    rw [show (EEPROM.get_values e11).vendor_string = str_value_get e11 963 24 from rfl]
    rw [str_value_get_congr e10 e11 963 24 0 320 (by norm_num) (by omega) A11]
    rw [he10, hs]
    rw [show applyOpt EEPROM.set_vendor_string (some s) e9 = str_value_set e9 963 s from rfl]
    simp only [hs] at hvs
    exact str_value_get_set e9 963 24 s hvs.1 hvs.2 (by rw [L9]; norm_num)
  · -- baudrate_table
    intro t ht
    rw [show (EEPROM.get_values e11).baudrate_table =
      some (e11.get_baudrate_table) from rfl]
    rw [he11, ht]
    rw [show applyOpt EEPROM.set_baudrate_table (some t) e10 =
      EEPROM.set_baudrate_table e10 t from rfl]
    simp only [ht] at hbt
    exact congrArg some (get_baudrate_table_set e10 t (by rw [L10]; norm_num) hbt.1 hbt.2)



/-- C2 counterexample: an odd `max_power` does not survive the round trip —
`set_values` stores `ceil(3/2) = 2` and `get_values` doubles it back to 4. -/
theorem get_values_set_values_max_power_counterexample :
    ((EEPROM.set_values ⟨List.replicate 1024 0⟩ { max_power := some 3 }).get_values).max_power =
      some 4 ∧ (4 : Nat) ≠ 3 := by decide

/-- C4 (amended): when the accessed range lies within the 1024-byte image,
`set` preserves the length and `get` returns exactly the requested bytes;
the code performs no bounds check and raises no RangeError. -/
theorem eeprom_get_set_in_bounds (e : EEPROM) (pos len : Nat) (data : List Nat)
    (he : e.content.length = 1024) :
    (pos + data.length ≤ 1024 → (e.set pos data).content.length = 1024) ∧
    (pos + len ≤ 1024 → (e.get pos len).length = len) := by
  constructor
  · intro h
    rw [EEPROM.length_set e pos data (by omega), he]
  · intro h
    rw [EEPROM.get]
    simp only [List.length_take, List.length_drop]
    omega

theorem eeprom_get_set_in_bounds_witness :
    ((⟨List.replicate 1024 0⟩ : EEPROM).set 1000 (List.replicate 24 7)).content.length = 1024 ∧
    ((⟨List.replicate 1024 0⟩ : EEPROM).get 1000 24).length = 24 :=
  ⟨(eeprom_get_set_in_bounds ⟨List.replicate 1024 0⟩ 1000 24 (List.replicate 24 7)
      (by simp)).1 (by simp),
   (eeprom_get_set_in_bounds ⟨List.replicate 1024 0⟩ 1000 24 (List.replicate 24 7)
      (by simp)).2 (by omega)⟩

/-- C4 counterexample: an out-of-range write silently grows the buffer to 1028
bytes and an out-of-range read silently returns a short slice; no RangeError
exists in the code. -/
theorem eeprom_set_out_of_bounds_counterexample :
    ((⟨List.replicate 1024 0⟩ : EEPROM).set 1020 (List.replicate 8 1)).content.length = 1028 ∧
    ((⟨List.replicate 1024 0⟩ : EEPROM).get 1020 8).length = 4 := by decide

/-- C3 (amended): the transport write path (`_set_config`) fails with
`DeviceLocked` before transferring anything when the device is locked, but
`EEPROM.set` on the image performs no lock check: the write lands even when
the image's lock byte decodes as locked. -/
theorem locked_write_behaviour :
    (∀ (p : Programmer) (c : List Nat), p.locked = true → c.length = SIZE_EEPROM →
      p.set_eeprom_content c = .error Cp210xError.deviceLocked) ∧
    (∀ (e : EEPROM) (pos : Nat) (data : List Nat), e.get_locked = true →
      pos ≤ e.content.length → (e.set pos data).get pos data.length = data) := by
  constructor
  · intro p c hl hc
    rw [Programmer.set_eeprom_content, if_pos hc, Programmer.set_config, if_pos hl]
  · intro e pos data _ hpos
    exact get_set_self e pos data hpos

theorem locked_write_behaviour_witness :
    Programmer.set_eeprom_content ⟨true, List.replicate 1024 0⟩ (List.replicate 1024 1) =
      .error Cp210xError.deviceLocked ∧
    ((⟨List.replicate 1024 0⟩ : EEPROM).set 0 [7]).get 0 1 = [7] :=
  ⟨locked_write_behaviour.1 ⟨true, List.replicate 1024 0⟩ (List.replicate 1024 1) rfl
      (by simp [SIZE_EEPROM]),
   locked_write_behaviour.2 ⟨List.replicate 1024 0⟩ 0 [7] (by decide) (by simp)⟩

/-- C3 counterexample: with the image's lock byte equal to the locked sentinel
(0x00), a field write through `EEPROM.set_max_power` still modifies the
buffer; no DeviceLocked error is raised on the image path. -/
theorem image_set_ignores_lock_counterexample :
    (⟨List.replicate 1024 0⟩ : EEPROM).get_locked = true ∧
    ((⟨List.replicate 1024 0⟩ : EEPROM).set_max_power 100).content ≠
      (⟨List.replicate 1024 0⟩ : EEPROM).content := by decide



theorem get_values_set_values_witness :
    ((EEPROM.set_values ⟨List.replicate 1024 0⟩
      { product_string := some [72, 105]
        serial_number := some [49, 50, 51]
        product_id := some 0xEA60
        vendor_id := some 0x10C4
        version := some (1, 2)
        bus_powered := some true
        max_power := some 100
        locked := some false
        part_number := some 2
        vendor_string := some [86, 67]
        baudrate_table := some ((List.range 32).map (fun i => (i, i, 1, 100 + i))) }).get_values).vendor_id =
      some 0x10C4 :=
  (get_values_set_values ⟨List.replicate 1024 0⟩
    { product_string := some [72, 105]
      serial_number := some [49, 50, 51]
      product_id := some 0xEA60
      vendor_id := some 0x10C4
      version := some (1, 2)
      bus_powered := some true
      max_power := some 100
      locked := some false
      part_number := some 2
      vendor_string := some [86, 67]
      baudrate_table := some ((List.range 32).map (fun i => (i, i, 1, 100 + i))) }
    (by simp) (by simp only [ValueSet.Valid]; decide)).2.2.2.1 0x10C4 rfl

end CP210x
